import Mathlib

/-!
Verification of the clock-alignment utilities of `backtrader_plotting`
(`backtrader_plotting/utils.py`), shallowly embedded in Lean 4.

Timestamps are modelled as `Int` (the code only compares them with `==`
and `>`); series values are modelled by `FVal`, a float value that is
either NaN or a number.  Python list indexing that could raise
`IndexError` is modelled with `Option`: a `none` result of the aligner
corresponds to an uncaught exception in the Python code.
-/

/-- A float value as used by the aligner: either NaN (`float('nan')`) or an
ordinary numeric value. -/
inductive FVal where
  | nan : FVal
  | num : Int → FVal
deriving DecidableEq

/-- The inner scan of `convert_to_master_clock`
(`for i in range(next_start_idx, len(line_clk)): ...`), iterating over the
suffix of `line_clk` while tracking the absolute index `i`.  Returns the
index of the first exact hit (`sc == v`), stopping early at the first
entry with `v > sc`. -/
def scanList (sc : Int) : List Int → Nat → Option Nat
  | [], _ => none
  | v :: rest, i =>
      if sc = v then some i
      else if v > sc then none
      else scanList sc rest (i + 1)

/-- The inner scan starting at absolute index `start` of `line_clk`. -/
def scanMatch (line_clk : List Int) (sc : Int) (start : Nat) : Option Nat :=
  scanList sc (line_clk.drop start) start

/-- One iteration of the outer loop of `convert_to_master_clock` for master
timestamp `sc`, acting on the state `(new_line, next_start_idx)`.
On an exact hit at index `i`: `line_idx = i - clk_offset`; a negative
`line_idx` appends NaN, otherwise `line[line_idx]` is appended (out of
bounds would be a Python `IndexError`, modelled as `none`); the cursor
becomes `i + 1`.  With no hit, the fill value is the last appended value
when `fill_by_prev` is set and the output is non-empty, and NaN
otherwise; the cursor is unchanged. -/
def convertStep (line : List FVal) (line_clk : List Int) (clk_offset : Int)
    (fill_by_prev : Bool) (sc : Int) (st : List FVal × Nat) :
    Option (List FVal × Nat) :=
  match scanMatch line_clk sc st.2 with
  | some i =>
      let line_idx : Int := (i : Int) - clk_offset
      if line_idx < 0 then
        some (st.1 ++ [FVal.nan], i + 1)
      else
        match line.get? line_idx.toNat with
        | some v => some (st.1 ++ [v], i + 1)
        | none => none
  | none =>
      let fill_v :=
        if 0 < st.1.length && fill_by_prev then st.1.getLast?.getD FVal.nan
        else FVal.nan
      some (st.1 ++ [fill_v], st.2)

/-- The outer loop of `convert_to_master_clock`
(`for sc in master_clock: ...`), threading `(new_line, next_start_idx)`. -/
def convertGo (line : List FVal) (line_clk : List Int) (clk_offset : Int)
    (fill_by_prev : Bool) : List Int → List FVal × Nat → Option (List FVal × Nat)
  | [], st => some st
  | sc :: rest, st =>
      match convertStep line line_clk clk_offset fill_by_prev sc st with
      | some st1 => convertGo line line_clk clk_offset fill_by_prev rest st1
      | none => none

/-- `convert_to_master_clock(line, line_clk, master_clock, fill_by_prev)`:
returns `line` unchanged when `master_clock is None`; otherwise computes
`clk_offset = len(line_clk) - len(line)` and runs the alignment loop,
starting from the empty output and cursor 0. -/
def convert_to_master_clock (line : List FVal) (line_clk : List Int)
    (master_clock : Option (List Int)) (fill_by_prev : Bool) :
    Option (List FVal) :=
  match master_clock with
  | none => some line
  | some mc =>
      let clk_offset : Int := (line_clk.length : Int) - (line.length : Int)
      match convertGo line line_clk clk_offset fill_by_prev mc ([], 0) with
      | some st => some st.1
      | none => none

/-- An object carrying a `plotinfo.plotid` attribute; `plotid = none`
models a missing attribute or a `None` value (the `getattr` default), and
`oid` distinguishes objects. -/
structure PlotObj where
  oid : Nat
  plotid : Option Int
deriving DecidableEq

/-- Whether an `Except` result is an error (a raised exception). -/
def isErr {ε α : Type} : Except ε α → Bool
  | Except.error _ => true
  | Except.ok _ => false

/-- `find_by_plotid`: collects all objects whose `plotid` equals the
searched one; returns `None` for no result, the single object for one
result, and raises `RuntimeError` for several. -/
def find_by_plotid (objs : List PlotObj) (plotid : Option Int) :
    Except String (Option PlotObj) :=
  let founds := objs.filter (fun o => o.plotid == plotid)
  let num_results := founds.length
  if num_results = 0 then Except.ok none
  else if num_results = 1 then Except.ok founds.head?
  else Except.error "Found multiple objects with plotid"

/-- If the inner scan starting at absolute index `i` reports a hit at `j`,
then `j` lies beyond `i`, within the scanned suffix, and the clock entry
there is exactly the searched timestamp. -/
theorem scanList_some_spec (sc : Int) :
    ∀ (l : List Int) (i j : Nat), scanList sc l i = some j →
      i ≤ j ∧ j - i < l.length ∧ l[j - i]? = some sc := by
  intro l
  induction l with
  | nil => intro i j h; simp [scanList] at h
  | cons v rest ih =>
    intro i j h
    rw [scanList] at h
    split at h
    · cases h
      refine ⟨Nat.le_refl _, by simp, ?_⟩
      simp_all
    · split at h
      · exact absurd h (by simp)
      · obtain ⟨h1, h2, h3⟩ := ih (i + 1) j h
        refine ⟨by omega, by simp; omega, ?_⟩
        have he : j - i = (j - (i + 1)) + 1 := by omega
        rw [he]
        simpa using h3

/-- A hit of `scanMatch clk sc s` lies at or after the cursor `s`, in
bounds of the clock, and at an entry equal to `sc`. -/
theorem scanMatch_some_spec (clk : List Int) (sc : Int) (s j : Nat)
    (h : scanMatch clk sc s = some j) :
    s ≤ j ∧ j < clk.length ∧ clk[j]? = some sc := by
  obtain ⟨h1, h2, h3⟩ := scanList_some_spec sc (clk.drop s) s j h
  rw [List.length_drop] at h2
  refine ⟨h1, by omega, ?_⟩
  rw [List.getElem?_drop] at h3
  have he : s + (j - s) = j := by omega
  rwa [he] at h3

/-- The scan reports no hit when the searched timestamp does not occur in
the scanned part of the clock. -/
theorem scanList_none_of_not_mem (sc : Int) :
    ∀ (l : List Int) (i : Nat), sc ∉ l → scanList sc l i = none := by
  intro l
  induction l with
  | nil => intro i _; rfl
  | cons v rest ih =>
    intro i h
    rw [List.mem_cons] at h
    push_neg at h
    rw [scanList, if_neg h.1]
    split
    · rfl
    · exact ih (i + 1) h.2

/-- `scanMatch` reports no hit when the searched timestamp does not occur
in the clock suffix from the cursor on. -/
theorem scanMatch_none_of_not_mem (clk : List Int) (sc : Int) (s : Nat)
    (h : sc ∉ clk.drop s) : scanMatch clk sc s = none :=
  scanList_none_of_not_mem sc (clk.drop s) s h

/-- When the clock entry at the cursor itself equals the searched
timestamp, the scan hits there immediately. -/
theorem scanMatch_at_hit (clk : List Int) (sc : Int) (s : Nat)
    (h : clk[s]? = some sc) : scanMatch clk sc s = some s := by
  have hs : s < clk.length := by
    by_contra hc
    rw [List.getElem?_eq_none (by omega)] at h
    cases h
  have hv : clk[s] = sc := by
    rw [List.getElem?_eq_getElem hs] at h
    exact Option.some.inj h
  rw [scanMatch, List.drop_eq_getElem_cons hs, scanList, if_pos hv.symm]

/-- With the offset actually computed by `convert_to_master_clock`
(`len(line_clk) - len(line)`), one loop iteration never fails: it appends
exactly one value — an element of the output so far, an element of the
data line, or NaN — and never moves the cursor backward. -/
theorem convertStep_total (line : List FVal) (clk : List Int) (fb : Bool)
    (sc : Int) (nl : List FVal) (ns : Nat) :
    ∃ v ns2,
      convertStep line clk ((clk.length : Int) - line.length) fb sc (nl, ns) =
        some (nl ++ [v], ns2)
      ∧ ns ≤ ns2 ∧ (v ∈ nl ∨ v ∈ line ∨ v = FVal.nan) := by
  cases hscan : scanMatch clk sc ns with
  | none =>
    refine ⟨if 0 < nl.length && fb then nl.getLast?.getD FVal.nan else FVal.nan,
      ns, ?_, Nat.le_refl _, ?_⟩
    · simp only [convertStep, hscan]
    · split
      · cases hl : nl.getLast? with
        | none => simp
        | some a => exact Or.inl (by simpa using List.mem_of_getLast?_eq_some hl)
      · exact Or.inr (Or.inr rfl)
  | some i =>
    obtain ⟨hge, hlt, _⟩ := scanMatch_some_spec clk sc ns i hscan
    by_cases hneg : (i : Int) - ((clk.length : Int) - line.length) < 0
    · refine ⟨FVal.nan, i + 1, ?_, by omega, Or.inr (Or.inr rfl)⟩
      simp only [convertStep, hscan]
      rw [if_pos hneg]
    · have hidx : ((i : Int) - ((clk.length : Int) - line.length)).toNat <
        line.length := by omega
      refine ⟨line.get ⟨((i : Int) - ((clk.length : Int) - line.length)).toNat, hidx⟩,
        i + 1, ?_, by omega, Or.inr (Or.inl (List.get_mem line _ _))⟩
      simp only [convertStep, hscan]
      rw [if_neg hneg, List.get?_eq_getElem?, List.getElem?_eq_getElem hidx]
      simp [List.get_eq_getElem]

/-- One loop iteration never moves the cursor backward, whatever the
offset. -/
theorem convertStep_mono (line : List FVal) (clk : List Int) (off : Int)
    (fb : Bool) (sc : Int) (st st2 : List FVal × Nat)
    (h : convertStep line clk off fb sc st = some st2) : st.2 ≤ st2.2 := by
  cases hscan : scanMatch clk sc st.2 with
  | none =>
    simp only [convertStep, hscan] at h
    cases h
    exact Nat.le_refl _
  | some i =>
    have hge := (scanMatch_some_spec clk sc st.2 i hscan).1
    simp only [convertStep, hscan] at h
    split at h
    · cases h
      omega
    · split at h
      · cases h
        omega
      · cases h

/-- Across the whole outer loop, the cursor never moves backward,
whatever the offset. -/
theorem convertGo_mono (line : List FVal) (clk : List Int) (off : Int)
    (fb : Bool) :
    ∀ (ms : List Int) (st st2 : List FVal × Nat),
      convertGo line clk off fb ms st = some st2 → st.2 ≤ st2.2 := by
  intro ms
  induction ms with
  | nil =>
    intro st st2 h
    cases h
    exact Nat.le_refl _
  | cons sc rest ih =>
    intro st st2 h
    rw [convertGo] at h
    cases hstep : convertStep line clk off fb sc st with
    | none => rw [hstep] at h; cases h
    | some st1 =>
      rw [hstep] at h
      exact Nat.le_trans (convertStep_mono line clk off fb sc st st1 hstep)
        (ih st1 st2 h)

/-- Full specification of the outer loop at the offset computed by
`convert_to_master_clock`: it never fails, appends exactly one value per
master timestamp, never moves the cursor backward, and every value of the
output comes from the prior output, from the data line, or is NaN. -/
theorem convertGo_spec (line : List FVal) (clk : List Int) (fb : Bool) :
    ∀ (ms : List Int) (acc : List FVal) (ns : Nat),
      ∃ nl2 ns2,
        convertGo line clk ((clk.length : Int) - line.length) fb ms (acc, ns) =
          some (nl2, ns2)
        ∧ nl2.length = acc.length + ms.length
        ∧ ns ≤ ns2
        ∧ ∀ v ∈ nl2, v ∈ acc ∨ v ∈ line ∨ v = FVal.nan := by
  intro ms
  induction ms with
  | nil =>
    intro acc ns
    exact ⟨acc, ns, rfl, by simp, Nat.le_refl _, fun v hv => Or.inl hv⟩
  | cons sc rest ih =>
    intro acc ns
    obtain ⟨v, ns1, hstep, hns1, hv⟩ := convertStep_total line clk fb sc acc ns
    obtain ⟨nl2, ns2, hgo, hlen, hns2, hmem⟩ := ih (acc ++ [v]) ns1
    refine ⟨nl2, ns2, ?_, ?_, by omega, ?_⟩
    · rw [convertGo, hstep]
      exact hgo
    · rw [hlen]
      simp
      omega
    · intro w hw
      rcases hmem w hw with h | h | h
      · rcases List.mem_append.mp h with h1 | h1
        · exact Or.inl h1
        · have hwv : w = v := by simpa using h1
          rw [hwv]
          exact hv
      · exact Or.inr (Or.inl h)
      · exact Or.inr (Or.inr h)

/-- Key step for self-alignment: when a series is aligned onto its own
clock (offset 0), after the first `c1.length` master timestamps have been
processed the cursor sits exactly at `c1.length`, and the remaining loop
reproduces the remaining series values verbatim. -/
theorem convertGo_self (fb : Bool) :
    ∀ (c2 : List Int) (l2 : List FVal) (c1 : List Int) (l1 acc : List FVal),
      l1.length = c1.length → l2.length = c2.length →
      convertGo (l1 ++ l2) (c1 ++ c2) 0 fb c2 (acc, c1.length) =
        some (acc ++ l2, (c1 ++ c2).length) := by
  intro c2
  induction c2 with
  | nil =>
    intro l2 c1 l1 acc _ h2
    have hl2 : l2 = [] := List.length_eq_zero.mp (by simpa using h2)
    subst hl2
    simp [convertGo]
  | cons sc c2t ih =>
    intro l2 c1 l1 acc h1 h2
    cases l2 with
    | nil => simp at h2
    | cons v l2t =>
      have hhit : (c1 ++ sc :: c2t)[c1.length]? = some sc := by
        rw [List.getElem?_append_right (Nat.le_refl _)]
        simp
      have hscan : scanMatch (c1 ++ sc :: c2t) sc c1.length = some c1.length :=
        scanMatch_at_hit _ _ _ hhit
      have hstep : convertStep (l1 ++ v :: l2t) (c1 ++ sc :: c2t) 0 fb sc
          (acc, c1.length) = some (acc ++ [v], c1.length + 1) := by
        simp only [convertStep, hscan]
        rw [if_neg (by omega)]
        have he : (((c1.length : Nat) : Int) - 0).toNat = l1.length := by omega
        rw [he, List.get?_eq_getElem?, List.getElem?_append_right (Nat.le_refl _)]
        simp
      have hgo : convertGo (l1 ++ v :: l2t) (c1 ++ sc :: c2t) 0 fb (sc :: c2t)
            (acc, c1.length) =
          convertGo (l1 ++ v :: l2t) (c1 ++ sc :: c2t) 0 fb c2t
            (acc ++ [v], c1.length + 1) := by
        rw [convertGo, hstep]
      have e1 : l1 ++ v :: l2t = (l1 ++ [v]) ++ l2t := by simp
      have e2 : c1 ++ sc :: c2t = (c1 ++ [sc]) ++ c2t := by simp
      have e3 : c1.length + 1 = (c1 ++ [sc]).length := by simp
      rw [hgo, e1, e2, e3,
        ih l2t (c1 ++ [sc]) (l1 ++ [v]) (acc ++ [v]) (by simp [h1]) (by simpa using h2)]
      simp

/-- Claim C1 (counterexample): an empty — but present — master clock does
NOT return the series unchanged: pass-through happens only for an absent
(`None`) master clock. -/
theorem c1_empty_master_counterexample :
    convert_to_master_clock [FVal.num 1] [10] (some []) false ≠
      some [FVal.num 1] := by
  decide

/-- Claim C1 (amended): if the master clock is absent (`None`), alignment
returns the input series unchanged; an empty (non-`None`) master clock
instead produces the empty output, one value per master timestamp. -/
theorem c1_passthrough_only_none (line : List FVal) (clk : List Int)
    (fb : Bool) :
    convert_to_master_clock line clk none fb = some line
    ∧ convert_to_master_clock line clk (some []) fb = some [] :=
  ⟨rfl, rfl⟩

/-- Claim C2: for every non-`None` master clock of length M, alignment
succeeds and returns a sequence of length exactly M, one value per master
timestamp. -/
theorem c2_length_invariant (line : List FVal) (clk : List Int)
    (mc : List Int) (fb : Bool) :
    ∃ res, convert_to_master_clock line clk (some mc) fb = some res
      ∧ res.length = mc.length := by
  obtain ⟨nl2, ns2, hgo, hlen, _, _⟩ := convertGo_spec line clk fb mc [] 0
  refine ⟨nl2, ?_, by simpa using hlen⟩
  simp only [convert_to_master_clock, hgo]

/-- Claim C3: for a master timestamp with no exact match in the series
clock (from the cursor on), the loop emits NaN, unless `fill_by_prev` is
set and the output already has a prior entry, in which case it emits the
previously emitted value; in particular
`align([10,20,30],[1,3],[10,30]) = [1,NaN,3]` and, with previous-value
fill, `[1,1,3]`. -/
theorem c3_gap_fill :
    (∀ (line : List FVal) (clk : List Int) (off : Int) (fb : Bool) (sc : Int)
      (nl : List FVal) (ns : Nat), sc ∉ clk.drop ns →
      convertStep line clk off fb sc (nl, ns) =
        some (nl ++ [if 0 < nl.length && fb then nl.getLast?.getD FVal.nan
                     else FVal.nan], ns))
    ∧ convert_to_master_clock [FVal.num 1, FVal.num 3] [10, 30]
        (some [10, 20, 30]) false = some [FVal.num 1, FVal.nan, FVal.num 3]
    ∧ convert_to_master_clock [FVal.num 1, FVal.num 3] [10, 30]
        (some [10, 20, 30]) true = some [FVal.num 1, FVal.num 1, FVal.num 3] := by
  refine ⟨?_, by decide, by decide⟩
  intro line clk off fb sc nl ns h
  simp only [convertStep, scanMatch_none_of_not_mem clk sc ns h]

/-- Witness for C3 at a concrete no-match input with previous-value
fill. -/
theorem c3_gap_fill_witness :
    convertStep [FVal.num 5] [10] 0 true 20 ([FVal.num 5], 1) =
      some ([FVal.num 5, FVal.num 5], 1) := by
  rw [c3_gap_fill.1 [FVal.num 5] [10] 0 true 20 [FVal.num 5] 1 (by decide)]
  decide

/-- Claim C4: when the scan hits the series clock at index `i`, the loop
emits `line[i - offset]` with `offset = len(line_clk) - len(line)`, or NaN
when `i - offset < 0`; in particular with `seriesClock=[5,10,20]` and
`series=[100,200]`, `align([10,20],...) = [100,200]` and a master clock
containing `5` yields NaN at that position. -/
theorem c4_match_emits :
    (∀ (line : List FVal) (clk : List Int) (fb : Bool) (sc : Int)
      (nl : List FVal) (ns i : Nat), scanMatch clk sc ns = some i →
      convertStep line clk ((clk.length : Int) - line.length) fb sc (nl, ns) =
        some (nl ++
          [if (i : Int) - ((clk.length : Int) - line.length) < 0 then FVal.nan
           else line.getD
             ((i : Int) - ((clk.length : Int) - line.length)).toNat FVal.nan],
          i + 1))
    ∧ convert_to_master_clock [FVal.num 100, FVal.num 200] [5, 10, 20]
        (some [10, 20]) false = some [FVal.num 100, FVal.num 200]
    ∧ convert_to_master_clock [FVal.num 100, FVal.num 200] [5, 10, 20]
        (some [5, 10, 20]) false
        = some [FVal.nan, FVal.num 100, FVal.num 200] := by
  refine ⟨?_, by decide, by decide⟩
  intro line clk fb sc nl ns i h
  obtain ⟨hge, hlt, _⟩ := scanMatch_some_spec clk sc ns i h
  simp only [convertStep, h]
  by_cases hneg : (i : Int) - ((clk.length : Int) - line.length) < 0
  · rw [if_pos hneg, if_pos hneg]
  · have hidx : ((i : Int) - ((clk.length : Int) - line.length)).toNat <
      line.length := by omega
    rw [if_neg hneg, if_neg hneg, List.get?_eq_getElem?,
      List.getElem?_eq_getElem hidx]
    simp [List.getD_eq_getElem?_getD, List.getElem?_eq_getElem hidx]

/-- Witness for C4 at a concrete hit: master `10` against clock
`[5,10,20]` and series `[100,200]` hits index 1, emitting `100`
(`line_idx = 0`). -/
theorem c4_match_emits_witness :
    convertStep [FVal.num 100, FVal.num 200] [5, 10, 20]
      ((([5, 10, 20] : List Int).length : Int) -
        (([FVal.num 100, FVal.num 200] : List FVal).length : Int))
      false 10 ([], 0) = some ([FVal.num 100], 2) := by
  rw [c4_match_emits.1 [FVal.num 100, FVal.num 200] [5, 10, 20] false 10 [] 0 1
    (by decide)]
  decide

/-- Claim C5: the scan cursor never moves backward: a hit lies at or after
the cursor, one loop iteration never decreases the cursor, nor does any
run of the outer loop; consequently a consumed clock entry is never
re-matched, e.g. `align([10,10],[1,2],[10,10]) = [1,2]`, not `[1,1]`. -/
theorem c5_cursor_monotone :
    (∀ (clk : List Int) (sc : Int) (ns i : Nat),
      scanMatch clk sc ns = some i → ns ≤ i)
    ∧ (∀ (line : List FVal) (clk : List Int) (off : Int) (fb : Bool)
        (sc : Int) (st st2 : List FVal × Nat),
        convertStep line clk off fb sc st = some st2 → st.2 ≤ st2.2)
    ∧ (∀ (line : List FVal) (clk : List Int) (off : Int) (fb : Bool)
        (ms : List Int) (st st2 : List FVal × Nat),
        convertGo line clk off fb ms st = some st2 → st.2 ≤ st2.2)
    ∧ convert_to_master_clock [FVal.num 1, FVal.num 2] [10, 10]
        (some [10, 10]) false = some [FVal.num 1, FVal.num 2] :=
  ⟨fun clk sc ns i h => (scanMatch_some_spec clk sc ns i h).1,
   convertStep_mono, convertGo_mono, by decide⟩

/-- Witness for C5: concrete cursor positions before and after a hit, a
step, and a full run. -/
theorem c5_cursor_monotone_witness : (1 : Nat) ≤ 1 ∧ (0 : Nat) ≤ 1 ∧ (0 : Nat) ≤ 2 :=
  ⟨c5_cursor_monotone.1 [10, 10] 10 1 1 (by decide),
   c5_cursor_monotone.2.1 [FVal.num 1] [10] 0 false 10 ([], 0)
     ([FVal.num 1], 1) (by decide),
   c5_cursor_monotone.2.2.1 [FVal.num 1, FVal.num 2] [10, 10] 0 false [10, 10]
     ([], 0) ([FVal.num 1, FVal.num 2], 2) (by decide)⟩

/-- Claim C6: aligning a series onto its own clock (equal lengths) is the
identity: `align(c, s, c) = s`. -/
theorem c6_self_alignment (s : List FVal) (c : List Int) (fb : Bool)
    (h : s.length = c.length) :
    convert_to_master_clock s c (some c) fb = some s := by
  have hoff : (c.length : Int) - (s.length : Int) = 0 := by omega
  have hgo := convertGo_self fb c s [] [] [] rfl h
  simp only [List.nil_append, List.length_nil] at hgo
  simp only [convert_to_master_clock, hoff, hgo]

/-- Witness for C6: `align([10,20,30],[1,2,3],[10,20,30]) = [1,2,3]`. -/
theorem c6_self_alignment_witness :
    convert_to_master_clock [FVal.num 1, FVal.num 2, FVal.num 3] [10, 20, 30]
      (some [10, 20, 30]) false = some [FVal.num 1, FVal.num 2, FVal.num 3] :=
  c6_self_alignment [FVal.num 1, FVal.num 2, FVal.num 3] [10, 20, 30] false
    (by decide)

/-- Claim C7: alignment is total — it raises no exception for any input,
whatever the relative lengths of series and clock and whether the clocks
are monotonic — and every emitted value is an element of the series or
NaN (every non-negative `line_idx` is in bounds). -/
theorem c7_total_no_exception (line : List FVal) (clk : List Int)
    (mc : Option (List Int)) (fb : Bool) :
    ∃ res, convert_to_master_clock line clk mc fb = some res
      ∧ ∀ v ∈ res, v ∈ line ∨ v = FVal.nan := by
  cases mc with
  | none => exact ⟨line, rfl, fun v hv => Or.inl hv⟩
  | some ms =>
    obtain ⟨nl2, ns2, hgo, _, _, hmem⟩ := convertGo_spec line clk fb ms [] 0
    refine ⟨nl2, ?_, ?_⟩
    · simp only [convert_to_master_clock, hgo]
    · intro v hv
      rcases hmem v hv with h | h | h
      · exact absurd h (List.not_mem_nil v)
      · exact Or.inl h
      · exact Or.inr h

/-- Claim C8: with `fill_by_prev = true`, a hit whose corrected index is
negative emits NaN — not the previously emitted value — even when the
output already has prior entries: previous-value fill applies only in the
no-hit branch. -/
theorem c8_neg_idx_emits_nan (line : List FVal) (clk : List Int) (sc : Int)
    (nl : List FVal) (ns i : Nat)
    (hm : scanMatch clk sc ns = some i)
    (hneg : (i : Int) - ((clk.length : Int) - line.length) < 0) :
    convertStep line clk ((clk.length : Int) - line.length) true sc (nl, ns) =
      some (nl ++ [FVal.nan], i + 1) := by
  simp only [convertStep, hm]
  rw [if_pos hneg]

/-- Witness for C8: a hit with corrected index `-1` emits NaN although the
output already holds the value 7 and previous-value fill is on. -/
theorem c8_neg_idx_emits_nan_witness :
    convertStep ([] : List FVal) [5]
      ((([5] : List Int).length : Int) - (([] : List FVal).length : Int))
      true 5 ([FVal.num 7], 0) = some ([FVal.num 7, FVal.nan], 1) :=
  c8_neg_idx_emits_nan [] [5] 5 [FVal.num 7] 0 0 (by decide) (by decide)

/-- Claim C9: `find_by_plotid` raises exactly when more than one object
carries the searched plotid; with exactly one match it returns that
object, and with no match it returns `None` without raising. -/
theorem c9_find_by_plotid (objs : List PlotObj) (pid : Option Int) :
    (isErr (find_by_plotid objs pid) = true ↔
      2 ≤ (objs.filter (fun o => o.plotid == pid)).length)
    ∧ (∀ o, objs.filter (fun o => o.plotid == pid) = [o] →
        find_by_plotid objs pid = Except.ok (some o))
    ∧ (objs.filter (fun o => o.plotid == pid) = [] →
        find_by_plotid objs pid = Except.ok none) := by
  cases hf : objs.filter (fun o => o.plotid == pid) with
  | nil => simp [find_by_plotid, hf, isErr]
  | cons a t =>
    cases t with
    | nil => simp [find_by_plotid, hf, isErr]
    | cons b t2 => simp [find_by_plotid, hf, isErr]

/-- Witness for C9: a unique match is returned, a duplicated plotid
raises. -/
theorem c9_find_by_plotid_witness :
    find_by_plotid [⟨0, some 1⟩, ⟨1, some 2⟩] (some 2) =
      Except.ok (some ⟨1, some 2⟩)
    ∧ isErr (find_by_plotid [⟨0, some 3⟩, ⟨1, some 3⟩] (some 3)) = true :=
  ⟨(c9_find_by_plotid [⟨0, some 1⟩, ⟨1, some 2⟩] (some 2)).2.1 ⟨1, some 2⟩
     (by decide),
   (c9_find_by_plotid [⟨0, some 3⟩, ⟨1, some 3⟩] (some 3)).1.mpr (by decide)⟩

/-- Claim C10: alignment is deterministic: two calls on identical inputs
produce identical outputs (the embedding is a pure function of its four
arguments, and its output is freshly constructed by the loop). -/
theorem c10_deterministic (l1 l2 : List FVal) (c1 c2 : List Int)
    (m1 m2 : Option (List Int)) (f1 f2 : Bool)
    (hl : l1 = l2) (hc : c1 = c2) (hm : m1 = m2) (hf : f1 = f2) :
    convert_to_master_clock l1 c1 m1 f1 = convert_to_master_clock l2 c2 m2 f2 := by
  rw [hl, hc, hm, hf]

/-- Witness for C10 at concrete identical inputs. -/
theorem c10_deterministic_witness :
    convert_to_master_clock [FVal.num 1] [10] (some [10]) false =
      convert_to_master_clock [FVal.num 1] [10] (some [10]) false :=
  c10_deterministic [FVal.num 1] [FVal.num 1] [10] [10] (some [10]) (some [10])
    false false rfl rfl rfl rfl
